import Mathlib

/-!
Shallow embedding of `mbgl::gl::Context` (src/src/mbgl/gl/context.hpp) and of the
behaviour of its member functions.  The header in `src/` is declarations only; the
definitions of the member functions (context.cpp, state.hpp, object.cpp) are not part
of `src/`, so those operations are modelled from the specification (spec.md §3–§4.5),
as indicated on each definition.  Driver (OpenGL) interaction is made explicit: every
operation that may talk to the driver returns, next to the updated `Context`, the list
of driver calls it issued.
-/

/-- Handle kinds of the Object Handle Layer (context.hpp: ProgramID, ShaderID,
BufferID, TextureID, VertexArrayID, FramebufferID).  Handles themselves are opaque
driver-assigned integer identifiers (GLuint in the source), embedded as `Nat`. -/
inductive Kind where
  | program
  | shader
  | buffer
  | texture
  | vertexArray
  | framebuffer
deriving DecidableEq, Repr

/-- Pool bound for reusable textures (context.hpp line 20: `constexpr size_t TextureMax = 64;`). -/
def TextureMax : Nat := 64

/-- Observable driver calls: `gen` is a fresh-handle allocation of one handle of a
kind, `deleteBulk` is the bulk driver-destroy call for a list of handles of a kind. -/
inductive DriverCall where
  | gen (k : Kind) (id : Nat)
  | deleteBulk (k : Kind) (ids : List Nat)
deriving DecidableEq, Repr

/-- Modelled from the spec: the `State<T>` cache cell of state.hpp (not under src/).
Spec §3: a state cell holds `(lastAppliedValue, isKnownValid)`;
`isKnownValid = false` forces the next apply to hit the driver regardless of the
cached value. -/
structure StateCell (α : Type) where
  lastAppliedValue : α
  isKnownValid : Bool
deriving DecidableEq, Repr

/-- Modelled from the spec: setting a state cell (spec §4.2): compare the new value
against the cached value; if unchanged and the cell is marked valid, no driver call
is issued; otherwise issue the driver call and update the cache.  The returned `Bool`
is `true` exactly when a driver call was issued. -/
def StateCell.set [DecidableEq α] (s : StateCell α) (v : α) : StateCell α × Bool :=
  if v = s.lastAppliedValue ∧ s.isKnownValid = true then
    (s, false)
  else
    ({ lastAppliedValue := v, isKnownValid := true }, true)

/-- Modelled from the spec: marking one cell invalid (spec §3 / §4.2, state.hpp's
`setDirty` is not under src/). -/
def StateCell.markInvalid (s : StateCell α) : StateCell α :=
  { s with isKnownValid := false }

/-- Modelled from the spec: a sequence of `set` calls on one cell, returning the final
cell and the per-call driver-call indicator. -/
def StateCell.setSeq [DecidableEq α] (s : StateCell α) : List α → StateCell α × List Bool
  | [] => (s, [])
  | v :: vs =>
    let r1 := s.set v
    let r2 := r1.1.setSeq vs
    (r2.1, r1.2 :: r2.2)

/-- Names of the state cells of `Context` (context.hpp lines 95–128), one per
`State<value::...>` member; the `std::array<State<value::BindTexture>, 2>` member
contributes the two cells `texture0` and `texture1`. -/
inductive CellName where
  | bindFramebuffer
  | viewport
  | activeTexture
  | texture0
  | texture1
  | vertexArrayObject
  | stencilFunc
  | stencilMask
  | stencilTest
  | stencilOp
  | depthRange
  | depthMask
  | depthTest
  | depthFunc
  | blend
  | blendFunc
  | blendColor
  | colorMask
  | clearDepth
  | clearColor
  | clearStencil
  | program
  | pointSize
  | lineWidth
  | pixelZoom
  | rasterPos
  | vertexBuffer
  | elementBuffer
deriving DecidableEq, Repr

/-- Key of the vertex-array cache (context.hpp lines 156–161): program handle, vertex
buffer handle, index buffer handle, vertex buffer byte offset. -/
structure VertexArrayObjectKey where
  program : Nat
  vertexBuffer : Nat
  indexBuffer : Nat
  offset : Nat
deriving DecidableEq, Repr

/-- State of a `mbgl::gl::Context` (context.hpp lines 95–168): the reusable texture
pool, the six abandonment queues, the vertex-array cache (an association list models
the `unordered_map`), the state-cache cells (cell values are modelled as `Nat`), and
the driver's fresh-handle counter (models which id `glGen*` hands out next). -/
structure Context where
  pooledTextures : List Nat
  abandonedPrograms : List Nat
  abandonedShaders : List Nat
  abandonedBuffers : List Nat
  abandonedTextures : List Nat
  abandonedVertexArrays : List Nat
  abandonedFramebuffers : List Nat
  vaos : List (VertexArrayObjectKey × Nat)
  cells : CellName → StateCell Nat
  nextHandle : Nat

/-- A fresh context: every pool, queue and cache is empty and every state cell is
unknown (invalid) until first applied. -/
def Context.init : Context where
  pooledTextures := []
  abandonedPrograms := []
  abandonedShaders := []
  abandonedBuffers := []
  abandonedTextures := []
  abandonedVertexArrays := []
  abandonedFramebuffers := []
  vaos := []
  cells := fun _ => { lastAppliedValue := 0, isKnownValid := false }
  nextHandle := 1

/-- Direct translation of `Context::empty` (context.hpp lines 82–90): the pool and the
six abandonment queues are all empty. -/
def Context.empty (c : Context) : Bool :=
  c.pooledTextures.isEmpty
    && c.abandonedPrograms.isEmpty
    && c.abandonedShaders.isEmpty
    && c.abandonedBuffers.isEmpty
    && c.abandonedTextures.isEmpty
    && c.abandonedVertexArrays.isEmpty
    && c.abandonedFramebuffers.isEmpty

/-- The abandonment queue of a given kind. -/
def Context.abandonedQueue (c : Context) (k : Kind) : List Nat :=
  match k with
  | .program => c.abandonedPrograms
  | .shader => c.abandonedShaders
  | .buffer => c.abandonedBuffers
  | .texture => c.abandonedTextures
  | .vertexArray => c.abandonedVertexArrays
  | .framebuffer => c.abandonedFramebuffers

/-- Modelled from the spec: updating one named cell of the state cache through
`StateCell.set`; returns the updated cache and whether a driver call was issued. -/
def setCellFn (cells : CellName → StateCell Nat) (n : CellName) (v : Nat) :
    (CellName → StateCell Nat) × Bool :=
  let r := (cells n).set v
  (fun m => if m = n then r.1 else cells m, r.2)

/-- Modelled from the spec: setting one typed state property of the Context
(spec §4.2); the `Bool` reports whether a driver call was issued. -/
def Context.setCell (c : Context) (n : CellName) (v : Nat) : Context × Bool :=
  let r := setCellFn c.cells n v
  ({ c with cells := r.1 }, r.2)

/-- Modelled from the spec: `Context::setDirtyState` (context.cpp is not under src/).
Spec §4.2: marks every cell invalid, forcing the next set on each to hit the driver
regardless of value. -/
def Context.setDirtyState (c : Context) : Context :=
  { c with cells := fun n => (c.cells n).markInvalid }

/-- Error taxonomy of the core (spec §7): the driver refused to allocate a handle of
the given kind. -/
inductive ContextError where
  | resourceAllocationError (k : Kind)
deriving DecidableEq, Repr

/-- The driver's allocation capability: whether a fresh handle of each kind can
currently be allocated (models resource exhaustion, spec §4.1/§7). -/
structure Driver where
  canAllocate : Kind → Bool

/-- Modelled from the spec: the shared shape of `Context::createProgram`,
`createVertexShader`, `createFragmentShader` and `createFramebuffer`
(context.cpp is not under src/).  Spec §4.1: allocate one driver handle of the
matching kind and return it; on exhaustion fail with a `ResourceAllocationError`
carrying the requested kind; no side effect beyond the allocation call itself. -/
def Context.createObject (d : Driver) (k : Kind) (c : Context) :
    Except ContextError (Context × Nat × List DriverCall) :=
  if d.canAllocate k then
    .ok ({ c with nextHandle := c.nextHandle + 1 }, c.nextHandle,
      [DriverCall.gen k c.nextHandle])
  else
    .error (.resourceAllocationError k)

/-- Modelled from the spec: `Context::createTexture` (context.cpp is not under src/).
Spec §4.3: a subsequent `createTexture` call recycles pooled driver storage instead of
allocating fresh; with an empty pool it allocates one fresh texture handle per
spec §4.1.  The pool is used LIFO, matching the `std::vector` push-back/pop-back
discipline of the source. -/
def Context.createTexture (d : Driver) (c : Context) :
    Except ContextError (Context × Nat × List DriverCall) :=
  match c.pooledTextures.getLast? with
  | some id => .ok ({ c with pooledTextures := c.pooledTextures.dropLast }, id, [])
  | none => Context.createObject d .texture c

/-- Modelled from the spec: the unique-ownership wrapper deleters of object.cpp (not
under src/; friend-declared at context.hpp lines 140–145).  Spec §4.3: releasing a
wrapper of kind K appends its handle to the abandoned-K queue, except Texture handles,
which go to the reusable-texture pool; the pool is bounded by `TextureMax`
(context.hpp line 20), a full pool routing the handle to the abandoned-textures queue.
A release issues no driver call (spec §5: it is a pure data-structure mutation). -/
def Context.release (c : Context) (k : Kind) (id : Nat) : Context × List DriverCall :=
  match k with
  | .program => ({ c with abandonedPrograms := c.abandonedPrograms ++ [id] }, [])
  | .shader => ({ c with abandonedShaders := c.abandonedShaders ++ [id] }, [])
  | .buffer => ({ c with abandonedBuffers := c.abandonedBuffers ++ [id] }, [])
  | .texture =>
    if c.pooledTextures.length < TextureMax then
      ({ c with pooledTextures := c.pooledTextures ++ [id] }, [])
    else
      ({ c with abandonedTextures := c.abandonedTextures ++ [id] }, [])
  | .vertexArray => ({ c with abandonedVertexArrays := c.abandonedVertexArrays ++ [id] }, [])
  | .framebuffer => ({ c with abandonedFramebuffers := c.abandonedFramebuffers ++ [id] }, [])

/-- Releasing a whole list of wrappers of one kind, in order. -/
def Context.releaseAll (c : Context) (k : Kind) (ids : List Nat) : Context :=
  ids.foldl (fun acc id => (acc.release k id).1) c

/-- The bulk driver-destroy call for one abandonment queue: issued only when the queue
holds handles. -/
def bulkDestroy (k : Kind) (ids : List Nat) : List DriverCall :=
  if ids.isEmpty then [] else [DriverCall.deleteBulk k ids]

/-- Modelled from the spec: `Context::performCleanup` (context.cpp is not under src/;
declared at context.hpp lines 74–76).  Spec §4.3: for every abandonment queue, issue
the bulk driver-destroy call for all queued handles and empty the queue. -/
def Context.performCleanup (c : Context) : Context × List DriverCall :=
  ({ c with
      abandonedPrograms := []
      abandonedShaders := []
      abandonedBuffers := []
      abandonedTextures := []
      abandonedVertexArrays := []
      abandonedFramebuffers := [] },
    bulkDestroy .program c.abandonedPrograms
      ++ bulkDestroy .shader c.abandonedShaders
      ++ bulkDestroy .buffer c.abandonedBuffers
      ++ bulkDestroy .texture c.abandonedTextures
      ++ bulkDestroy .vertexArray c.abandonedVertexArrays
      ++ bulkDestroy .framebuffer c.abandonedFramebuffers)

/-- Modelled from the spec: `Context::reset` (context.cpp is not under src/; declared
at context.hpp lines 78–80).  Spec §4.3: performs the same bulk destruction as
`performCleanup()` but additionally drains and destroys all pooled (unused) textures
and all live vertex-array cache entries. -/
def Context.reset (c : Context) : Context × List DriverCall :=
  Context.performCleanup
    { c with
        pooledTextures := []
        abandonedTextures := c.abandonedTextures ++ c.pooledTextures
        vaos := []
        abandonedVertexArrays := c.abandonedVertexArrays ++ c.vaos.map (fun p => p.2) }

/-- The handles of one kind destroyed by a trace of driver calls, in call order. -/
def destroyedHandles (tr : List DriverCall) (k : Kind) : List Nat :=
  tr.foldr
    (fun call acc =>
      match call with
      | .deleteBulk k' ids => if k' = k then ids ++ acc else acc
      | .gen _ _ => acc)
    []

/-- The number of fresh-allocation driver calls in a trace. -/
def allocationCallCount (tr : List DriverCall) : Nat :=
  (tr.filter fun call =>
    match call with
    | .gen _ _ => true
    | .deleteBulk _ _ => false).length

/-- Lookup in the vertex-array cache (the association-list model of the
`unordered_map` at context.hpp line 167–168): first entry with the given key. -/
def vaoLookup : List (VertexArrayObjectKey × Nat) → VertexArrayObjectKey → Option Nat
  | [], _ => none
  | (k', id) :: rest, k => if k' = k then some id else vaoLookup rest k

/-- Inserting a freshly created vertex-array object under its key: the cache grows by
one entry carrying the next fresh driver handle, and the handle counter advances. -/
def Context.insertVao (c : Context) (key : VertexArrayObjectKey) : Context :=
  { c with vaos := c.vaos ++ [(key, c.nextHandle)], nextHandle := c.nextHandle + 1 }

/-- Modelled from the spec: the vertex-array cache step of `Context::draw`
(context.cpp is not under src/).  Spec §4.4: cache hit reuses the existing
vertex-array object, binding it via the state cache; cache miss creates a new
vertex-array object, inserts it keyed by the tuple, and binds it.  The returned `Bool`
is `true` exactly when a new vertex-array object was created. -/
def Context.getVertexArray (c : Context) (key : VertexArrayObjectKey) :
    Context × Nat × Bool :=
  match vaoLookup c.vaos key with
  | some id => ((c.setCell .vertexArrayObject id).1, id, false)
  | none => (((c.insertVao key).setCell .vertexArrayObject c.nextHandle).1, c.nextHandle, true)

/-- Processing a sequence of draw requests through the vertex-array cache; each event
records the request key, the vertex-array object used, and whether it was newly
created. -/
def processDraws (c : Context) :
    List VertexArrayObjectKey → Context × List (VertexArrayObjectKey × Nat × Bool)
  | [] => (c, [])
  | k :: ks =>
    let r1 := c.getVertexArray k
    let r2 := processDraws r1.1 ks
    (r2.1, (k, r1.2.1, r1.2.2) :: r2.2)

/-- The number of vertex-array objects created for a given key along a draw-event
trace. -/
def creations (evs : List (VertexArrayObjectKey × Nat × Bool))
    (k : VertexArrayObjectKey) : Nat :=
  (evs.filter fun e => decide (e.1 = k) && e.2.2).length

/-- The vertex-array object ids newly created along a draw-event trace, in order. -/
def createdIds (evs : List (VertexArrayObjectKey × Nat × Bool)) : List Nat :=
  evs.filterMap fun e => if e.2.2 then some e.2.1 else none

/-- Well-formedness of the vertex-array cache: every cached id is older than the
driver's fresh-handle counter. -/
def VaoWF (c : Context) : Prop :=
  ∀ p ∈ c.vaos, p.2 < c.nextHandle

/-- Number of per-unit bound-texture cells (context.hpp line 98:
`std::array<State<value::BindTexture>, 2> texture;`). -/
def textureUnitCount : Nat := 2

/-- The state cell tracking a texture unit, when the unit is within the tracked
array (context.hpp line 98). -/
def textureCellOfUnit : Nat → Option CellName
  | 0 => some .texture0
  | 1 => some .texture1
  | _ => none

/-- One cached binding value of a texture unit: texture handle together with its
filter and mipmap settings, packed injectively into the `Nat` cell value. -/
def encodeTextureBinding (tex : Nat) (filter mipmap : Bool) : Nat :=
  4 * tex + 2 * (cond filter 1 0) + cond mipmap 1 0

/-- Modelled from the spec: `Context::bindTexture` (context.cpp is not under src/;
declared at context.hpp lines 59–62).  Spec §4.2: tracks which texture is bound per
unit over the bounded set of 2 units and skips the bind driver call when the requested
texture is already bound to that unit with matching filter/mipmap settings; it also
updates the active-texture cell.  A unit outside the tracked array has no cell to
access, so the operation is undefined there (`none`). -/
def Context.bindTexture (c : Context) (tex : Nat) (unit : Nat)
    (filter mipmap : Bool) : Option (Context × Bool) :=
  match textureCellOfUnit unit with
  | none => none
  | some cellName =>
    let c1 := (c.setCell .activeTexture unit).1
    let r := c1.setCell cellName (encodeTextureBinding tex filter mipmap)
    some (r.1, r.2)

/-- The operations a client can perform on a `Context` (the surface of context.hpp
that mutates the resource store or the state cache). -/
inductive Op where
  | release (k : Kind) (id : Nat)
  | createObject (k : Kind)
  | createTexture
  | performCleanup
  | reset
  | draw (key : VertexArrayObjectKey)
  | setDirtyState
  | setCell (n : CellName) (v : Nat)
  | bindTexture (tex : Nat) (unit : Nat) (filter mipmap : Bool)

/-- One step of the operational model: apply an operation to a context, discarding
driver traces, returned handles, and allocation failures (a failed create leaves the
context unchanged). -/
def Context.step (d : Driver) (c : Context) : Op → Context
  | .release k id => (c.release k id).1
  | .createObject k =>
    match Context.createObject d k c with
    | .ok r => r.1
    | .error _ => c
  | .createTexture =>
    match Context.createTexture d c with
    | .ok r => r.1
    | .error _ => c
  | .performCleanup => c.performCleanup.1
  | .reset => c.reset.1
  | .draw key => (c.getVertexArray key).1
  | .setDirtyState => c.setDirtyState
  | .setCell n v => (c.setCell n v).1
  | .bindTexture tex unit filter mipmap =>
    match c.bindTexture tex unit filter mipmap with
    | some r => r.1
    | none => c

/-- Running a sequence of operations from a context. -/
def Context.run (d : Driver) (c : Context) (ops : List Op) : Context :=
  ops.foldl (Context.step d) c

/-- The driver-call trace of a create operation (empty on failure). -/
def createTraceOf : Except ContextError (Context × Nat × List DriverCall) → List DriverCall
  | .ok r => r.2.2
  | .error _ => []

/-- C1: For every state cell and every sequence of `set` calls on it, a `set` issues a
driver call if and only if the value being set differs from the cached
`lastAppliedValue` or the cell is marked invalid; when the value equals the cached
value and the cell is valid, no driver call is issued and the cell is unchanged. -/
theorem stateCell_set_driver_call_iff {α : Type} [DecidableEq α]
    (s0 : StateCell α) (vsBefore : List α) (v : α) :
    (((s0.setSeq vsBefore).1.set v).2 = true ↔
      (v ≠ (s0.setSeq vsBefore).1.lastAppliedValue ∨
        (s0.setSeq vsBefore).1.isKnownValid = false)) ∧
    ((v = (s0.setSeq vsBefore).1.lastAppliedValue ∧
        (s0.setSeq vsBefore).1.isKnownValid = true) →
      (s0.setSeq vsBefore).1.set v = ((s0.setSeq vsBefore).1, false)) := by
  constructor
  · unfold StateCell.set
    split
    · rename_i h
      simp only [Bool.false_eq_true, false_iff]
      push_neg
      exact ⟨h.1, by simp [h.2]⟩
    · rename_i h
      simp only [true_iff]
      by_cases hv : v = (s0.setSeq vsBefore).1.lastAppliedValue
      · right
        rcases Bool.eq_false_or_eq_true (s0.setSeq vsBefore).1.isKnownValid with hb | hb
        · exact absurd ⟨hv, hb⟩ h
        · exact hb
      · left; exact hv
  · intro h
    unfold StateCell.set
    simp [h.1, h.2]

/-- Witness for C1 at a concrete cell, a concrete call sequence and a concrete value. -/
theorem stateCell_set_driver_call_iff_witness :
    ((((⟨0, false⟩ : StateCell Nat).setSeq [5, 7]).1.set 7).2 = true ↔
      (7 ≠ (((⟨0, false⟩ : StateCell Nat).setSeq [5, 7]).1.lastAppliedValue) ∨
        (((⟨0, false⟩ : StateCell Nat).setSeq [5, 7]).1.isKnownValid = false))) ∧
    ((7 = (((⟨0, false⟩ : StateCell Nat).setSeq [5, 7]).1.lastAppliedValue) ∧
        (((⟨0, false⟩ : StateCell Nat).setSeq [5, 7]).1.isKnownValid = true)) →
      ((⟨0, false⟩ : StateCell Nat).setSeq [5, 7]).1.set 7 =
        ((((⟨0, false⟩ : StateCell Nat).setSeq [5, 7]).1), false)) :=
  stateCell_set_driver_call_iff (⟨0, false⟩ : StateCell Nat) [5, 7] 7

/-- C5: After `setDirtyState()`, the very next `set` on any state cell issues a driver
call, even when the value being set equals the cell's cached value. -/
theorem setDirtyState_next_set_issues_driver_call (c : Context) (n : CellName) (v : Nat) :
    (c.setDirtyState.setCell n v).2 = true := by
  unfold Context.setDirtyState Context.setCell setCellFn StateCell.set StateCell.markInvalid
  simp

/-- C7: `Context::empty` returns `true` if and only if the reusable-texture pool and
all six abandonment queues are simultaneously empty (context.hpp lines 82–90); in this
embedding `empty` is a pure function of the state, so it modifies nothing. -/
theorem empty_iff_all_drained (c : Context) :
    c.empty = true ↔
      (c.pooledTextures = [] ∧ c.abandonedPrograms = [] ∧ c.abandonedShaders = [] ∧
        c.abandonedBuffers = [] ∧ c.abandonedTextures = [] ∧
        c.abandonedVertexArrays = [] ∧ c.abandonedFramebuffers = []) := by
  unfold Context.empty
  simp [List.isEmpty_iff, and_assoc]

theorem context_empty_eq_true_iff (c : Context) :
    c.empty = true ↔
      (c.pooledTextures = [] ∧ c.abandonedPrograms = [] ∧ c.abandonedShaders = [] ∧
        c.abandonedBuffers = [] ∧ c.abandonedTextures = [] ∧
        c.abandonedVertexArrays = [] ∧ c.abandonedFramebuffers = []) := by
  unfold Context.empty
  simp [List.isEmpty_iff, and_assoc]

theorem destroyedHandles_append (t1 t2 : List DriverCall) (k : Kind) :
    destroyedHandles (t1 ++ t2) k = destroyedHandles t1 k ++ destroyedHandles t2 k := by
  induction t1 with
  | nil => rfl
  | cons hd tl ih =>
    cases hd with
    | gen k' id => simpa [destroyedHandles] using ih
    | deleteBulk k' ids =>
      by_cases h : k' = k <;> simp [destroyedHandles, h] at ih ⊢ <;> simp [ih]

theorem destroyedHandles_bulkDestroy (k' k : Kind) (ids : List Nat) :
    destroyedHandles (bulkDestroy k' ids) k = if k' = k then ids else [] := by
  unfold bulkDestroy
  by_cases hids : ids.isEmpty
  · rw [List.isEmpty_iff.mp hids]
    simp [destroyedHandles]
  · by_cases h : k' = k <;> simp [hids, destroyedHandles, h]

theorem performCleanup_destroyed (c : Context) (k : Kind) :
    destroyedHandles c.performCleanup.2 k = c.abandonedQueue k := by
  cases k <;>
    simp [Context.performCleanup, Context.abandonedQueue, destroyedHandles_append,
      destroyedHandles_bulkDestroy]

theorem performCleanup_clears (c : Context) (k : Kind) :
    c.performCleanup.1.abandonedQueue k = [] := by
  cases k <;> rfl

theorem performCleanup_empty_eq (c : Context) :
    c.performCleanup.1.empty = c.pooledTextures.isEmpty := by
  simp [Context.performCleanup, Context.empty]

theorem performCleanup_vaos (c : Context) : c.performCleanup.1.vaos = c.vaos := rfl

theorem release_trace_nil (c : Context) (k : Kind) (id : Nat) :
    (c.release k id).2 = [] := by
  cases k <;> simp [Context.release]
  split <;> rfl

theorem release_queue_of_nontexture (c : Context) (k : Kind) (hk : k ≠ .texture)
    (id : Nat) (k' : Kind) :
    (c.release k id).1.abandonedQueue k'
      = (if k' = k then c.abandonedQueue k' ++ [id] else c.abandonedQueue k') := by
  cases k <;> cases k' <;> simp_all [Context.release, Context.abandonedQueue]

theorem release_pool_of_nontexture (c : Context) (k : Kind) (hk : k ≠ .texture)
    (id : Nat) :
    (c.release k id).1.pooledTextures = c.pooledTextures := by
  cases k <;> simp_all [Context.release]

theorem releaseAll_queue_self (k : Kind) (hk : k ≠ .texture) (ids : List Nat) :
    ∀ (c : Context),
      (c.releaseAll k ids).abandonedQueue k = c.abandonedQueue k ++ ids := by
  induction ids with
  | nil => intro c; simp [Context.releaseAll]
  | cons id ids ih =>
    intro c
    have step : (c.releaseAll k (id :: ids)) = ((c.release k id).1.releaseAll k ids) := rfl
    rw [step, ih (c.release k id).1, release_queue_of_nontexture c k hk id k]
    simp

theorem releaseAll_queue_other (k : Kind) (hk : k ≠ .texture) (ids : List Nat)
    (k' : Kind) (hkk : k' ≠ k) :
    ∀ (c : Context),
      (c.releaseAll k ids).abandonedQueue k' = c.abandonedQueue k' := by
  induction ids with
  | nil => intro c; simp [Context.releaseAll]
  | cons id ids ih =>
    intro c
    have step : (c.releaseAll k (id :: ids)) = ((c.release k id).1.releaseAll k ids) := rfl
    rw [step, ih (c.release k id).1, release_queue_of_nontexture c k hk id k']
    simp [hkk]

theorem releaseAll_pool (k : Kind) (hk : k ≠ .texture) (ids : List Nat) :
    ∀ (c : Context),
      (c.releaseAll k ids).pooledTextures = c.pooledTextures := by
  induction ids with
  | nil => intro c; simp [Context.releaseAll]
  | cons id ids ih =>
    intro c
    have step : (c.releaseAll k (id :: ids)) = ((c.release k id).1.releaseAll k ids) := rfl
    rw [step, ih (c.release k id).1, release_pool_of_nontexture c k hk id]

/-- C2 counterexample: with the reusable pool already holding TextureMax (64) handles,
releasing a Texture wrapper does not append its handle to the pool; the handle goes to
the abandoned-textures queue instead. -/
theorem texture_release_full_pool_counterexample :
    (({ Context.init with pooledTextures := List.replicate TextureMax 7 }).release
        .texture 9).1.pooledTextures = List.replicate TextureMax 7
    ∧ (({ Context.init with pooledTextures := List.replicate TextureMax 7 }).release
        .texture 9).1.pooledTextures ≠ List.replicate TextureMax 7 ++ [9]
    ∧ (({ Context.init with pooledTextures := List.replicate TextureMax 7 }).release
        .texture 9).1.abandonedTextures = [9] := by
  refine ⟨rfl, ?_, rfl⟩
  decide

/-- C2 (amended): releasing a unique-ownership wrapper issues no driver call (in
particular no destroy); a non-Texture kind K appends the handle to the abandoned-K
queue; a Texture wrapper appends it to the reusable pool provided the pool holds fewer
than TextureMax handles, and the next createTexture call then recycles exactly that
pooled handle, issuing zero new-allocation driver calls. -/
theorem release_routes_and_createTexture_recycles (c : Context) (k : Kind)
    (id : Nat) (d : Driver) :
    ((c.release k id).2 = [])
    ∧ (k ≠ .texture →
        (c.release k id).1.abandonedQueue k = c.abandonedQueue k ++ [id])
    ∧ (c.pooledTextures.length < TextureMax →
        (c.release .texture id).1.pooledTextures = c.pooledTextures ++ [id]
        ∧ Context.createTexture d (c.release .texture id).1
            = .ok ({ (c.release .texture id).1 with pooledTextures := c.pooledTextures },
                id, [])
        ∧ allocationCallCount
            (createTraceOf (Context.createTexture d (c.release .texture id).1)) = 0) := by
  refine ⟨release_trace_nil c k id, ?_, ?_⟩
  · intro hk
    rw [release_queue_of_nontexture c k hk id k]
    simp
  · intro hlt
    have hpool : (c.release .texture id).1.pooledTextures = c.pooledTextures ++ [id] := by
      simp [Context.release, hlt]
    have hcreate : Context.createTexture d (c.release .texture id).1
        = .ok ({ (c.release .texture id).1 with pooledTextures := c.pooledTextures },
            id, []) := by
      unfold Context.createTexture
      rw [hpool, List.getLast?_concat, List.dropLast_concat]
    refine ⟨hpool, hcreate, ?_⟩
    rw [hcreate]
    rfl

/-- Witness for C2's amended theorem at a concrete context, kind, handle and driver. -/
theorem release_routes_and_createTexture_recycles_witness :
    ((Context.init.release .buffer 3).2 = [])
    ∧ (Kind.buffer ≠ .texture →
        (Context.init.release .buffer 3).1.abandonedQueue .buffer
          = Context.init.abandonedQueue .buffer ++ [3])
    ∧ (Context.init.pooledTextures.length < TextureMax →
        (Context.init.release .texture 3).1.pooledTextures
            = Context.init.pooledTextures ++ [3]
        ∧ Context.createTexture (Driver.mk fun _ => true)
              (Context.init.release .texture 3).1
            = .ok ({ (Context.init.release .texture 3).1 with
                pooledTextures := Context.init.pooledTextures }, 3, [])
        ∧ allocationCallCount
            (createTraceOf (Context.createTexture (Driver.mk fun _ => true)
              (Context.init.release .texture 3).1)) = 0) :=
  release_routes_and_createTexture_recycles Context.init .buffer 3 (Driver.mk fun _ => true)

/-- C3: from a drained context, releasing N wrappers of a non-Texture kind K and then
calling performCleanup destroys exactly those N handles (and nothing of any other
kind), leaves the abandoned-K queue empty, and empty() returns true afterward. -/
theorem performCleanup_after_releases (c : Context) (k : Kind) (hk : k ≠ .texture)
    (hempty : c.empty = true) (ids : List Nat) :
    (∀ k', destroyedHandles ((c.releaseAll k ids).performCleanup).2 k'
        = if k' = k then ids else [])
    ∧ ((c.releaseAll k ids).performCleanup).1.abandonedQueue k = []
    ∧ ((c.releaseAll k ids).performCleanup).1.empty = true := by
  obtain ⟨hpool, hp, hs, hb, ht, hv, hf⟩ := (context_empty_eq_true_iff c).mp hempty
  have hqueues : ∀ k', c.abandonedQueue k' = [] := by
    intro k'; cases k' <;> assumption
  refine ⟨?_, performCleanup_clears _ k, ?_⟩
  · intro k'
    rw [performCleanup_destroyed]
    by_cases hkk : k' = k
    · rw [if_pos hkk, hkk, releaseAll_queue_self k hk ids c, hqueues k]
      simp
    · rw [releaseAll_queue_other k hk ids k' hkk c, hqueues k']
      simp [hkk]
  · rw [performCleanup_empty_eq, releaseAll_pool k hk ids c, hpool]
    rfl

/-- Witness for C3: three buffer handles released into a fresh context and reclaimed. -/
theorem performCleanup_after_releases_witness :
    (∀ k', destroyedHandles ((Context.init.releaseAll .buffer [10, 11, 12]).performCleanup).2 k'
        = if k' = .buffer then [10, 11, 12] else [])
    ∧ ((Context.init.releaseAll .buffer [10, 11, 12]).performCleanup).1.abandonedQueue .buffer = []
    ∧ ((Context.init.releaseAll .buffer [10, 11, 12]).performCleanup).1.empty = true :=
  performCleanup_after_releases Context.init .buffer (by decide) rfl [10, 11, 12]

/-- C6: reset performs the same bulk destruction over the abandonment queues as
performCleanup would, additionally destroys all pooled textures and all live
vertex-array cache entries, and afterward empty() is true and the vertex-array cache
holds no entries. -/
theorem reset_refines_performCleanup (c : Context) :
    (∀ k, k ≠ .texture → k ≠ .vertexArray →
      destroyedHandles c.reset.2 k = destroyedHandles c.performCleanup.2 k)
    ∧ destroyedHandles c.reset.2 .texture
        = destroyedHandles c.performCleanup.2 .texture ++ c.pooledTextures
    ∧ destroyedHandles c.reset.2 .vertexArray
        = destroyedHandles c.performCleanup.2 .vertexArray ++ c.vaos.map (fun p => p.2)
    ∧ c.reset.1.empty = true
    ∧ c.reset.1.vaos = [] := by
  refine ⟨?_, ?_, ?_, ?_, ?_⟩
  · intro k hkt hkv
    unfold Context.reset
    rw [performCleanup_destroyed, performCleanup_destroyed]
    cases k <;> simp_all [Context.abandonedQueue]
  · unfold Context.reset
    rw [performCleanup_destroyed, performCleanup_destroyed]
    simp [Context.abandonedQueue]
  · unfold Context.reset
    rw [performCleanup_destroyed, performCleanup_destroyed]
    simp [Context.abandonedQueue]
  · unfold Context.reset
    rw [performCleanup_empty_eq]
    rfl
  · unfold Context.reset
    rw [performCleanup_vaos]

/-- Witness for C6's hypothetical conjunct at the program kind on a concrete context. -/
theorem reset_refines_performCleanup_witness :
    destroyedHandles Context.init.reset.2 .program
      = destroyedHandles Context.init.performCleanup.2 .program :=
  (reset_refines_performCleanup Context.init).1 .program (by decide) (by decide)

/-- C8 counterexample: with a pooled texture available, createTexture succeeds even
though the driver cannot allocate any handle, and issues zero allocation driver calls
— so a create operation of the Object Handle Layer neither always fails with
ResourceAllocationError on driver exhaustion nor always allocates exactly one driver
handle on success. -/
theorem createTexture_pool_counterexample :
    (Driver.mk fun _ => false).canAllocate .texture = false
    ∧ Context.createTexture (Driver.mk fun _ => false)
        { Context.init with pooledTextures := [5] }
      = .ok ({ Context.init with pooledTextures := [] }, 5, [])
    ∧ allocationCallCount
        (createTraceOf (Context.createTexture (Driver.mk fun _ => false)
          { Context.init with pooledTextures := [5] })) = 0 :=
  ⟨rfl, rfl, rfl⟩

/-- C8 (amended): for createProgram, createVertexShader, createFragmentShader and
createFramebuffer — and for createTexture when the reusable pool is empty — driver
exhaustion fails with a ResourceAllocationError carrying the requested kind, and a
successful call allocates exactly one driver handle of the matching kind with no other
side effect (no queue, pool, vertex-array-cache or state-cell change — in particular
no implicit binding); createTexture with a nonempty pool instead recycles the most
recently pooled handle, succeeding without consulting the driver and issuing zero
allocation calls. -/
theorem create_operations_contract (d : Driver) (c : Context) (k : Kind) :
    (d.canAllocate k = false →
      Context.createObject d k c = .error (.resourceAllocationError k))
    ∧ (d.canAllocate k = true →
      Context.createObject d k c
        = .ok ({ c with nextHandle := c.nextHandle + 1 }, c.nextHandle,
            [DriverCall.gen k c.nextHandle]))
    ∧ (c.pooledTextures = [] →
        Context.createTexture d c = Context.createObject d .texture c)
    ∧ (∀ (id : Nat) (pool : List Nat), c.pooledTextures = pool ++ [id] →
        Context.createTexture d c = .ok ({ c with pooledTextures := pool }, id, [])
        ∧ allocationCallCount (createTraceOf (Context.createTexture d c)) = 0) := by
  refine ⟨?_, ?_, ?_, ?_⟩
  · intro h
    simp [Context.createObject, h]
  · intro h
    simp [Context.createObject, h]
  · intro h
    simp [Context.createTexture, h]
  · intro id pool h
    have hcreate : Context.createTexture d c = .ok ({ c with pooledTextures := pool }, id, []) := by
      unfold Context.createTexture
      rw [h, List.getLast?_concat, List.dropLast_concat]
    exact ⟨hcreate, by rw [hcreate]; rfl⟩

/-- Witness for C8's amended theorem at a concrete driver, context and kind. -/
theorem create_operations_contract_witness :
    ((Driver.mk fun _ => true).canAllocate .program = false →
      Context.createObject (Driver.mk fun _ => true) .program Context.init
        = .error (.resourceAllocationError .program))
    ∧ ((Driver.mk fun _ => true).canAllocate .program = true →
      Context.createObject (Driver.mk fun _ => true) .program Context.init
        = .ok ({ Context.init with nextHandle := Context.init.nextHandle + 1 },
            Context.init.nextHandle, [DriverCall.gen .program Context.init.nextHandle]))
    ∧ (Context.init.pooledTextures = [] →
        Context.createTexture (Driver.mk fun _ => true) Context.init
          = Context.createObject (Driver.mk fun _ => true) .texture Context.init)
    ∧ (∀ (id : Nat) (pool : List Nat),
        Context.init.pooledTextures = pool ++ [id] →
        Context.createTexture (Driver.mk fun _ => true) Context.init
            = .ok ({ Context.init with pooledTextures := pool }, id, [])
        ∧ allocationCallCount
            (createTraceOf (Context.createTexture (Driver.mk fun _ => true) Context.init)) = 0) :=
  create_operations_contract (Driver.mk fun _ => true) Context.init .program

/-- C10: the per-unit bound-texture cache covers exactly 2 texture units (context.hpp
line 98): bindTexture with unit u accesses the texture cell at index u, which exists
precisely when u < 2; for u >= 2 the unit is outside the tracked set and the access is
undefined. -/
theorem bindTexture_unit_bounds (c : Context) (tex u : Nat) (filter mipmap : Bool) :
    textureUnitCount = 2
    ∧ ((textureCellOfUnit u).isSome = true ↔ u < textureUnitCount)
    ∧ ((c.bindTexture tex u filter mipmap).isSome = true ↔ u < textureUnitCount) := by
  refine ⟨rfl, ?_, ?_⟩
  · match u with
    | 0 => simp [textureCellOfUnit, textureUnitCount]
    | 1 => simp [textureCellOfUnit, textureUnitCount]
    | n + 2 =>
      rw [show textureCellOfUnit (n + 2) = none from rfl]
      simp only [Option.isSome_none, textureUnitCount]
      constructor
      · intro h; exact absurd h (by decide)
      · intro h; omega
  · match u with
    | 0 => simp [Context.bindTexture, textureCellOfUnit, textureUnitCount]
    | 1 => simp [Context.bindTexture, textureCellOfUnit, textureUnitCount]
    | n + 2 =>
      rw [show c.bindTexture tex (n + 2) filter mipmap = none from rfl]
      simp only [Option.isSome_none, textureUnitCount]
      constructor
      · intro h; exact absurd h (by decide)
      · intro h; omega

theorem release_pooled_le (c : Context) (k : Kind) (id : Nat)
    (h : c.pooledTextures.length ≤ TextureMax) :
    ((c.release k id).1.pooledTextures).length ≤ TextureMax := by
  cases k <;> simp [Context.release, h]
  split
  · rename_i hlt
    simp
    omega
  · simpa using h

theorem step_pooled_le (d : Driver) (c : Context) (op : Op)
    (h : c.pooledTextures.length ≤ TextureMax) :
    ((c.step d op).pooledTextures).length ≤ TextureMax := by
  cases op with
  | release k id => exact release_pooled_le c k id h
  | createObject k =>
    by_cases hd : d.canAllocate k <;> simp [Context.step, Context.createObject, hd, h]
  | createTexture =>
    unfold Context.step Context.createTexture
    cases hpool : c.pooledTextures.getLast? with
    | some id =>
      simp only []
      have := List.length_dropLast c.pooledTextures
      simp
      omega
    | none =>
      by_cases hd : d.canAllocate .texture <;> simp [Context.createObject, hd, h]
  | performCleanup => simpa [Context.step, Context.performCleanup] using h
  | reset => simp [Context.step, Context.reset, Context.performCleanup]
  | draw key =>
    unfold Context.step Context.getVertexArray
    cases hl : vaoLookup c.vaos key <;> simpa [hl, Context.setCell] using h
  | setDirtyState => simpa [Context.step, Context.setDirtyState] using h
  | setCell n v => simpa [Context.step, Context.setCell] using h
  | bindTexture tex unit filter mipmap =>
    unfold Context.step Context.bindTexture
    cases hu : textureCellOfUnit unit <;> simpa [hu, Context.setCell] using h

theorem run_pooled_le (d : Driver) (ops : List Op) :
    ∀ (c : Context), c.pooledTextures.length ≤ TextureMax →
      ((c.run d ops).pooledTextures).length ≤ TextureMax := by
  induction ops with
  | nil => intro c h; exact h
  | cons op ops ih =>
    intro c h
    exact ih (c.step d op) (step_pooled_le d c op h)

/-- C9: the reusable-texture pool never holds more than TextureMax (64) handles:
the bound is preserved by every sequence of operations, and releasing a Texture
wrapper while the pool is already full leaves the pool unchanged and appends the
handle to the abandoned-textures queue instead. -/
theorem pooledTextures_bounded (d : Driver) :
    (∀ (c : Context) (ops : List Op), c.pooledTextures.length ≤ TextureMax →
      (((c.run d ops)).pooledTextures).length ≤ TextureMax)
    ∧ (∀ (c : Context) (id : Nat), c.pooledTextures.length = TextureMax →
      (c.release .texture id).1.pooledTextures = c.pooledTextures
      ∧ (c.release .texture id).1.abandonedTextures = c.abandonedTextures ++ [id]) := by
  constructor
  · intro c ops h
    exact run_pooled_le d ops c h
  · intro c id hfull
    have hnot : ¬ c.pooledTextures.length < TextureMax := by omega
    constructor <;> simp [Context.release, hnot]

/-- Witness for C9 at a fresh context, a concrete operation sequence and a concrete
full pool. -/
theorem pooledTextures_bounded_witness :
    (((Context.init.run (Driver.mk fun _ => true)
        [Op.release .texture 5, Op.release .texture 6])).pooledTextures).length ≤ TextureMax
    ∧ (({ Context.init with pooledTextures := List.replicate TextureMax 7 }).release
          .texture 9).1.pooledTextures
        = ({ Context.init with pooledTextures := List.replicate TextureMax 7 }).pooledTextures
    ∧ (({ Context.init with pooledTextures := List.replicate TextureMax 7 }).release
          .texture 9).1.abandonedTextures
        = ({ Context.init with pooledTextures := List.replicate TextureMax 7 }).abandonedTextures
            ++ [9] :=
  ⟨(pooledTextures_bounded (Driver.mk fun _ => true)).1 Context.init
      [Op.release .texture 5, Op.release .texture 6] (by decide),
    (pooledTextures_bounded (Driver.mk fun _ => true)).2
      { Context.init with pooledTextures := List.replicate TextureMax 7 } 9 (by decide)⟩

theorem vaoLookup_append_of_ne (l : List (VertexArrayObjectKey × Nat))
    (k k' : VertexArrayObjectKey) (id : Nat) (h : k' ≠ k) :
    vaoLookup (l ++ [(k', id)]) k = vaoLookup l k := by
  induction l with
  | nil => simp [vaoLookup, h]
  | cons p rest ih =>
    obtain ⟨pk, pid⟩ := p
    by_cases hp : pk = k <;> simp [vaoLookup, hp, ih]

theorem vaoLookup_append_self (l : List (VertexArrayObjectKey × Nat))
    (k : VertexArrayObjectKey) (id : Nat) (h : vaoLookup l k = none) :
    vaoLookup (l ++ [(k, id)]) k = some id := by
  induction l with
  | nil => simp [vaoLookup]
  | cons p rest ih =>
    obtain ⟨pk, pid⟩ := p
    by_cases hp : pk = k
    · simp [vaoLookup, hp] at h
    · simp only [vaoLookup, List.cons_append, if_neg hp] at h ⊢
      exact ih h

theorem vaoLookup_append_of_some (l : List (VertexArrayObjectKey × Nat))
    (k k' : VertexArrayObjectKey) (id j : Nat) (h : vaoLookup l k = some j) :
    vaoLookup (l ++ [(k', id)]) k = some j := by
  induction l with
  | nil => simp [vaoLookup] at h
  | cons p rest ih =>
    obtain ⟨pk, pid⟩ := p
    by_cases hp : pk = k
    · simp only [vaoLookup, List.cons_append, if_pos hp] at h ⊢
      exact h
    · simp only [vaoLookup, List.cons_append, if_neg hp] at h ⊢
      exact ih h

theorem getVertexArray_hit (c : Context) (key : VertexArrayObjectKey) (id : Nat)
    (h : vaoLookup c.vaos key = some id) :
    c.getVertexArray key = ((c.setCell .vertexArrayObject id).1, id, false) := by
  unfold Context.getVertexArray
  rw [h]

theorem getVertexArray_miss (c : Context) (key : VertexArrayObjectKey)
    (h : vaoLookup c.vaos key = none) :
    c.getVertexArray key =
      (((c.insertVao key).setCell .vertexArrayObject c.nextHandle).1,
        c.nextHandle, true) := by
  unfold Context.getVertexArray
  rw [h]

theorem setCell_vaos (c : Context) (n : CellName) (v : Nat) :
    (c.setCell n v).1.vaos = c.vaos := rfl

theorem insertVao_vaos (c : Context) (key : VertexArrayObjectKey) :
    (c.insertVao key).vaos = c.vaos ++ [(key, c.nextHandle)] := rfl

theorem processDraws_cons_hit (c : Context) (k' : VertexArrayObjectKey) (id : Nat)
    (ks : List VertexArrayObjectKey) (h : vaoLookup c.vaos k' = some id) :
    processDraws c (k' :: ks)
      = ((processDraws ((c.setCell .vertexArrayObject id).1) ks).1,
          (k', id, false) :: (processDraws ((c.setCell .vertexArrayObject id).1) ks).2) := by
  simp [processDraws, getVertexArray_hit c k' id h]

theorem processDraws_cons_miss (c : Context) (k' : VertexArrayObjectKey)
    (ks : List VertexArrayObjectKey) (h : vaoLookup c.vaos k' = none) :
    processDraws c (k' :: ks)
      = ((processDraws (((c.insertVao k').setCell .vertexArrayObject c.nextHandle).1) ks).1,
          (k', c.nextHandle, true) ::
            (processDraws (((c.insertVao k').setCell .vertexArrayObject c.nextHandle).1) ks).2) := by
  simp [processDraws, getVertexArray_miss c k' h]

theorem processDraws_fst_cons_hit (c : Context) (k' : VertexArrayObjectKey)
    (id : Nat) (ks : List VertexArrayObjectKey) (h : vaoLookup c.vaos k' = some id) :
    (processDraws c (k' :: ks)).1
      = (processDraws ((c.setCell .vertexArrayObject id).1) ks).1 := by
  rw [processDraws_cons_hit c k' id ks h]

theorem processDraws_snd_cons_hit (c : Context) (k' : VertexArrayObjectKey)
    (id : Nat) (ks : List VertexArrayObjectKey) (h : vaoLookup c.vaos k' = some id) :
    (processDraws c (k' :: ks)).2
      = (k', id, false) :: (processDraws ((c.setCell .vertexArrayObject id).1) ks).2 := by
  rw [processDraws_cons_hit c k' id ks h]

theorem processDraws_fst_cons_miss (c : Context) (k' : VertexArrayObjectKey)
    (ks : List VertexArrayObjectKey) (h : vaoLookup c.vaos k' = none) :
    (processDraws c (k' :: ks)).1
      = (processDraws (((c.insertVao k').setCell .vertexArrayObject c.nextHandle).1) ks).1 := by
  rw [processDraws_cons_miss c k' ks h]

theorem processDraws_snd_cons_miss (c : Context) (k' : VertexArrayObjectKey)
    (ks : List VertexArrayObjectKey) (h : vaoLookup c.vaos k' = none) :
    (processDraws c (k' :: ks)).2
      = (k', c.nextHandle, true) ::
          (processDraws (((c.insertVao k').setCell .vertexArrayObject c.nextHandle).1) ks).2 := by
  rw [processDraws_cons_miss c k' ks h]

theorem creations_cons_not_created (k' : VertexArrayObjectKey) (id : Nat)
    (evs : List (VertexArrayObjectKey × Nat × Bool)) (k : VertexArrayObjectKey) :
    creations ((k', id, false) :: evs) k = creations evs k := by
  simp [creations]

theorem creations_cons_created (k' : VertexArrayObjectKey) (id : Nat)
    (evs : List (VertexArrayObjectKey × Nat × Bool)) (k : VertexArrayObjectKey) :
    creations ((k', id, true) :: evs) k
      = creations evs k + (if k' = k then 1 else 0) := by
  by_cases h : k' = k <;> simp [creations, h]

theorem createdIds_cons_not_created (k' : VertexArrayObjectKey) (id : Nat)
    (evs : List (VertexArrayObjectKey × Nat × Bool)) :
    createdIds ((k', id, false) :: evs) = createdIds evs := by
  simp [createdIds]

theorem createdIds_cons_created (k' : VertexArrayObjectKey) (id : Nat)
    (evs : List (VertexArrayObjectKey × Nat × Bool)) :
    createdIds ((k', id, true) :: evs) = id :: createdIds evs := by
  simp [createdIds]

theorem processDraws_creations (ks : List VertexArrayObjectKey) :
    ∀ (c : Context) (k : VertexArrayObjectKey),
      creations (processDraws c ks).2 k
        = if (vaoLookup c.vaos k).isSome then 0 else if k ∈ ks then 1 else 0 := by
  induction ks with
  | nil => intro c k; simp [processDraws, creations]
  | cons k' ks ih =>
    intro c k
    cases hl : vaoLookup c.vaos k' with
    | some id =>
      rw [processDraws_snd_cons_hit c k' id ks hl, creations_cons_not_created,
        ih ((c.setCell .vertexArrayObject id).1) k, setCell_vaos]
      by_cases hk : k = k'
      · subst hk
        rw [hl]
        simp
      · simp [List.mem_cons, hk]
    | none =>
      rw [processDraws_snd_cons_miss c k' ks hl, creations_cons_created,
        ih (((c.insertVao k').setCell .vertexArrayObject c.nextHandle).1) k,
        setCell_vaos, insertVao_vaos]
      by_cases hk : k = k'
      · subst hk
        rw [vaoLookup_append_self c.vaos k c.nextHandle hl, hl]
        simp
      · rw [vaoLookup_append_of_ne c.vaos k k' c.nextHandle (fun he => hk he.symm)]
        simp [List.mem_cons, hk, Ne.symm hk]

theorem processDraws_nextHandle_le (ks : List VertexArrayObjectKey) :
    ∀ c : Context, c.nextHandle ≤ (processDraws c ks).1.nextHandle := by
  induction ks with
  | nil => intro c; exact Nat.le_refl _
  | cons k' ks ih =>
    intro c
    cases hl : vaoLookup c.vaos k' with
    | some id =>
      rw [processDraws_fst_cons_hit c k' id ks hl]
      exact ih ((c.setCell .vertexArrayObject id).1)
    | none =>
      rw [processDraws_fst_cons_miss c k' ks hl]
      have h2 := ih (((c.insertVao k').setCell .vertexArrayObject c.nextHandle).1)
      have h3 : (((c.insertVao k').setCell .vertexArrayObject c.nextHandle).1).nextHandle
          = c.nextHandle + 1 := rfl
      rw [h3] at h2
      exact Nat.le_trans (Nat.le_succ _) h2

theorem processDraws_createdIds_bounds (ks : List VertexArrayObjectKey) :
    ∀ (c : Context) (id : Nat), id ∈ createdIds (processDraws c ks).2 →
      c.nextHandle ≤ id ∧ id < (processDraws c ks).1.nextHandle := by
  induction ks with
  | nil => intro c id h; simp [processDraws, createdIds] at h
  | cons k' ks ih =>
    intro c id h
    cases hl : vaoLookup c.vaos k' with
    | some j =>
      rw [processDraws_snd_cons_hit c k' j ks hl, createdIds_cons_not_created] at h
      rw [processDraws_fst_cons_hit c k' j ks hl]
      exact ih _ id h
    | none =>
      rw [processDraws_snd_cons_miss c k' ks hl, createdIds_cons_created] at h
      rw [processDraws_fst_cons_miss c k' ks hl]
      have h3 : (((c.insertVao k').setCell .vertexArrayObject c.nextHandle).1).nextHandle
          = c.nextHandle + 1 := rfl
      rcases List.mem_cons.mp h with rfl | hmem
      · refine ⟨Nat.le_refl _, ?_⟩
        have h2 := processDraws_nextHandle_le ks
          (((c.insertVao k').setCell .vertexArrayObject c.nextHandle).1)
        omega
      · have h4 := ih _ id hmem
        exact ⟨by omega, h4.2⟩

theorem processDraws_createdIds_nodup (ks : List VertexArrayObjectKey) :
    ∀ c : Context, (createdIds (processDraws c ks).2).Nodup := by
  induction ks with
  | nil => intro c; simp [processDraws, createdIds]
  | cons k' ks ih =>
    intro c
    cases hl : vaoLookup c.vaos k' with
    | some j =>
      rw [processDraws_snd_cons_hit c k' j ks hl, createdIds_cons_not_created]
      exact ih _
    | none =>
      rw [processDraws_snd_cons_miss c k' ks hl, createdIds_cons_created]
      refine List.Nodup.cons ?_ (ih _)
      intro hmem
      have h2 := (processDraws_createdIds_bounds ks _ _ hmem).1
      have h3 : (((c.insertVao k').setCell .vertexArrayObject c.nextHandle).1).nextHandle
          = c.nextHandle + 1 := rfl
      omega

theorem vaoLookup_isSome_preserved (ks : List VertexArrayObjectKey) :
    ∀ (c : Context) (k : VertexArrayObjectKey), (vaoLookup c.vaos k).isSome = true →
      (vaoLookup (processDraws c ks).1.vaos k).isSome = true := by
  induction ks with
  | nil => intro c k h; simpa [processDraws] using h
  | cons k' ks ih =>
    intro c k h
    cases hl : vaoLookup c.vaos k' with
    | some j =>
      rw [processDraws_fst_cons_hit c k' j ks hl]
      apply ih
      rw [setCell_vaos]
      exact h
    | none =>
      rw [processDraws_fst_cons_miss c k' ks hl]
      apply ih
      rw [setCell_vaos, insertVao_vaos]
      obtain ⟨j, hj⟩ := Option.isSome_iff_exists.mp h
      rw [vaoLookup_append_of_some c.vaos k k' c.nextHandle j hj]
      rfl

theorem processDraws_mem_cached (ks : List VertexArrayObjectKey) :
    ∀ (c : Context) (k : VertexArrayObjectKey), k ∈ ks →
      (vaoLookup (processDraws c ks).1.vaos k).isSome = true := by
  induction ks with
  | nil => intro c k h; simp at h
  | cons k' ks ih =>
    intro c k h
    by_cases hk : k = k'
    · subst hk
      cases hl : vaoLookup c.vaos k with
      | some j =>
        rw [processDraws_fst_cons_hit c k j ks hl]
        apply vaoLookup_isSome_preserved
        rw [setCell_vaos, hl]
        rfl
      | none =>
        rw [processDraws_fst_cons_miss c k ks hl]
        apply vaoLookup_isSome_preserved
        rw [setCell_vaos, insertVao_vaos, vaoLookup_append_self c.vaos k c.nextHandle hl]
        rfl
    · have hmem : k ∈ ks := by
        rcases List.mem_cons.mp h with h1 | h1
        · exact absurd h1 hk
        · exact h1
      cases hl : vaoLookup c.vaos k' with
      | some j =>
        rw [processDraws_fst_cons_hit c k' j ks hl]
        exact ih _ k hmem
      | none =>
        rw [processDraws_fst_cons_miss c k' ks hl]
        exact ih _ k hmem

/-- C4: over any sequence of draw requests, all requests sharing an identical
vertex-array key (program, vertex buffer, index buffer, offset) create at most one
vertex-array object — none if the key is already cached, exactly one otherwise; every
created object is distinct from all other created objects and from every object
already in the cache; and every processed key ends up cached under that key. -/
theorem vertexArrayCache_correct (c : Context) (hwf : VaoWF c)
    (ks : List VertexArrayObjectKey) (k : VertexArrayObjectKey) :
    (creations (processDraws c ks).2 k
      = if (vaoLookup c.vaos k).isSome then 0 else if k ∈ ks then 1 else 0)
    ∧ (createdIds (processDraws c ks).2).Nodup
    ∧ (∀ id ∈ createdIds (processDraws c ks).2, ∀ p ∈ c.vaos, id ≠ p.2)
    ∧ (k ∈ ks → (vaoLookup (processDraws c ks).1.vaos k).isSome = true) := by
  refine ⟨processDraws_creations ks c k, processDraws_createdIds_nodup ks c, ?_,
    fun h => processDraws_mem_cached ks c k h⟩
  intro id hid p hp
  have h1 := (processDraws_createdIds_bounds ks c id hid).1
  have h2 := hwf p hp
  omega

/-- Witness for C4: a fresh context and three draw requests, two sharing one key and
one differing only in the offset. -/
theorem vertexArrayCache_correct_witness :
    (creations (processDraws Context.init
        [⟨1, 2, 3, 0⟩, ⟨1, 2, 3, 0⟩, ⟨1, 2, 3, 4⟩]).2 ⟨1, 2, 3, 0⟩
      = if (vaoLookup Context.init.vaos ⟨1, 2, 3, 0⟩).isSome then 0
        else if (⟨1, 2, 3, 0⟩ : VertexArrayObjectKey) ∈
            [(⟨1, 2, 3, 0⟩ : VertexArrayObjectKey), ⟨1, 2, 3, 0⟩, ⟨1, 2, 3, 4⟩]
          then 1 else 0)
    ∧ (createdIds (processDraws Context.init
        [⟨1, 2, 3, 0⟩, ⟨1, 2, 3, 0⟩, ⟨1, 2, 3, 4⟩]).2).Nodup
    ∧ (∀ id ∈ createdIds (processDraws Context.init
        [⟨1, 2, 3, 0⟩, ⟨1, 2, 3, 0⟩, ⟨1, 2, 3, 4⟩]).2,
        ∀ p ∈ Context.init.vaos, id ≠ p.2)
    ∧ ((⟨1, 2, 3, 0⟩ : VertexArrayObjectKey) ∈
          [(⟨1, 2, 3, 0⟩ : VertexArrayObjectKey), ⟨1, 2, 3, 0⟩, ⟨1, 2, 3, 4⟩] →
        (vaoLookup (processDraws Context.init
          [⟨1, 2, 3, 0⟩, ⟨1, 2, 3, 0⟩, ⟨1, 2, 3, 4⟩]).1.vaos ⟨1, 2, 3, 0⟩).isSome = true) :=
  vertexArrayCache_correct Context.init
    (fun p hp => absurd hp (List.not_mem_nil p))
    [⟨1, 2, 3, 0⟩, ⟨1, 2, 3, 0⟩, ⟨1, 2, 3, 4⟩] ⟨1, 2, 3, 0⟩
